import Mathlib

/-!
Verification of the clip/overlap arithmetic of MediaCore's AudioClip.cpp.

The development shallowly embeds the state and operations of
AudioClip_AudioImpl, AudioOverlap_Impl and AudioOverlap::HasOverlap.
All int64_t arithmetic is modelled on Int; C++ int64_t division truncates
toward zero, so every division taken from the source is Int.tdiv.
The uint32_t quantities (sample counts) are modelled on Nat; the model
assumes they stay below 2^32, so the uint32 wrap-around of casts in the
source is not represented.

The source reader (MediaReader) is an external collaborator.  Its behaviour
during one ReadAudioSamples call is an explicit input (structure SrcRead);
the clip records the last seek position it requested from the reader in the
field srcSeekPos so that seek effects are observable.  Collaborator failure
paths (which throw runtime_error in the source) are outside the model: the
model describes the executions in which every reader call succeeds.
-/

namespace MediaCore

/-- State of AudioClip_AudioImpl (AudioClip.cpp lines 35-356).  Fields keep
the names of the C++ members without the m_ prefixes.  sampleRate is the
fixed value of GetAudioOutSampleRate(); isForward mirrors the reader's
IsDirectionForward(); srcSeekPos records the argument of the last
srcReader SeekTo call issued by the clip (none if no seek was issued). -/
structure AudioClip where
  start : Int
  srcDuration : Int
  startOffset : Int
  endOffset : Int
  padding : Int
  readSamples : Int
  totalSamples : Int
  eof : Bool
  initSeek : Bool
  isForward : Bool
  sampleRate : Int
  srcSeekPos : Option Int
  deriving Repr, DecidableEq

/-- Duration() (line 125): srcDuration + padding - startOffset - endOffset. -/
def AudioClip.duration (c : AudioClip) : Int :=
  c.srcDuration + c.padding - c.startOffset - c.endOffset

/-- End() (line 110): start + Duration(). -/
def AudioClip.clipEnd (c : AudioClip) : Int :=
  c.start + c.duration

/-- ReadPos() (line 130): readSamples*1000/sampleRate + start. -/
def AudioClip.readPos (c : AudioClip) : Int :=
  Int.tdiv (c.readSamples * 1000) c.sampleRate + c.start

/-- LeftSamples() (lines 145-152).  The uint32 casts are modelled as
Int.toNat, which coincides with the source for values below 2^32. -/
def AudioClip.leftSamples (c : AudioClip) : Nat :=
  if c.isForward then
    if c.totalSamples > c.readSamples then (c.totalSamples - c.readSamples).toNat else 0
  else
    if c.readSamples > c.totalSamples then 0
    else if 0 ≤ c.readSamples then c.readSamples.toNat else 0

/-- The errors raised by the validation code in the constructor and the
offset mutators (invalid_argument throws in the source). -/
inductive ClipErr where
  | invalidArgument
  deriving Repr, DecidableEq

/-- Constructor of AudioClip_AudioImpl (lines 38-82), restricted to its
argument validation and positional arithmetic.  The external steps (opening
and configuring the reader, which yield srcDuration and sampleRate) are
inputs; their failure paths throw runtime_error and are outside the model.
The three invalid_argument checks appear in source order (lines 70-75). -/
def mkClip (srcDuration sampleRate start stop startOffset endOffset : Int) :
    Except ClipErr AudioClip :=
  if startOffset < 0 then .error .invalidArgument
  else if endOffset < 0 then .error .invalidArgument
  else if stop ≤ start then .error .invalidArgument
  else
    let c : AudioClip :=
      { start := start
        srcDuration := srcDuration
        startOffset := startOffset
        endOffset := endOffset
        padding := (stop - start) + startOffset + endOffset - srcDuration
        readSamples := 0
        totalSamples := 0
        eof := false
        initSeek := false
        isForward := true
        sampleRate := sampleRate
        srcSeekPos := none }
    .ok { c with totalSamples := Int.tdiv (c.duration * sampleRate) 1000 }

/-- ChangeStartOffset (lines 165-177): early return on an unchanged value,
validation, then recompute totalSamples and shift readSamples by the
totalSamples delta. -/
def changeStartOffset (c : AudioClip) (startOffset : Int) :
    Except ClipErr AudioClip :=
  if startOffset = c.startOffset then .ok c
  else if startOffset < 0 then .error .invalidArgument
  else if c.srcDuration ≤ startOffset + c.endOffset then .error .invalidArgument
  else
    let c1 := { c with startOffset := startOffset }
    let newTotalSamples := Int.tdiv (c1.duration * c.sampleRate) 1000
    .ok { c1 with
          readSamples := c.readSamples + (newTotalSamples - c.totalSamples)
          totalSamples := newTotalSamples }

/-- ChangeEndOffset (lines 179-189): like ChangeStartOffset but without the
readSamples adjustment. -/
def changeEndOffset (c : AudioClip) (endOffset : Int) :
    Except ClipErr AudioClip :=
  if endOffset = c.endOffset then .ok c
  else if endOffset < 0 then .error .invalidArgument
  else if c.srcDuration ≤ c.startOffset + endOffset then .error .invalidArgument
  else
    let c1 := { c with endOffset := endOffset }
    .ok { c1 with totalSamples := Int.tdiv (c1.duration * c.sampleRate) 1000 }

/-- SeekTo (lines 191-209).  Out-of-range positions are ignored (soft
no-op); a position whose sample equivalent equals readSamples returns
early; otherwise the clip seeks the reader to pos+startOffset clamped to
srcDuration, resets readSamples and clears eof. -/
def AudioClip.seekTo (c : AudioClip) (pos : Int) : AudioClip :=
  if pos < 0 ∨ c.duration < pos then c
  else
    let targetReadSamples := Int.tdiv (pos * c.sampleRate) 1000
    if targetReadSamples = c.readSamples then c
    else
      let seekPos := pos + c.startOffset
      let seekPos := if c.srcDuration < seekPos then c.srcDuration else seekPos
      { c with
        srcSeekPos := some seekPos
        readSamples := targetReadSamples
        eof := false }

/-- The behaviour of the source reader during one ReadAudioSamples call:
readPos is what GetReadPos() returns (after the initial corrective seek,
if any), deliver gives the sample count a reader ReadAudioSamples call
returns for a requested count, and readEof is the eof flag it reports on
the final (non-skip) read.  The eof flag of a skip read is overwritten by
the following real read in the source, so it does not appear here. -/
structure SrcRead where
  readPos : Int
  deliver : Nat → Nat
  readEof : Bool

/-- State update and output tail of ReadAudioSamples (lines 292-308):
advance readSamples by the delivered count signed by direction, then set
eof when the remaining count reaches zero or the source reported eof.
Returns (new state, delivered count, eof out-flag). -/
def readFinish (c : AudioClip) (srcEof : Bool) (delivered : Nat) :
    AudioClip × Nat × Bool :=
  let c1 :=
    if 0 < delivered then
      { c with readSamples :=
          c.readSamples + (if c.isForward then (delivered : Int) else -(delivered : Int)) }
    else c
  let newEof := c1.leftSamples = 0 ∨ srcEof = true
  ({ c1 with eof := decide newEof }, (if 0 < delivered then delivered else 0), decide newEof)

/-- ReadAudioSamples (lines 211-309), tracking the sample counts and flags
(the PCM payload and timestamps carry no information the claims need).
The source computes the expected read position through double arithmetic
(line 229); the model uses the exact rational value truncated toward zero.
Branches, in source order: eof / empty early return; clamp of the request
to LeftSamples(); one-time initial corrective seek; drift measurement
against the reader position.  Line 244 sets skip exactly when the expected
position lies further along the current reading direction than the reader
position (forward with the reader behind, or backward with the reader
ahead): then a discarded reader read resynchronises and a real read
follows; in the opposite drift direction the clip backfills silence with
min(request, drift) samples instead.  For the clip state the skip path
coincides with the plain read path, since the skip only advances the
external reader and its eof flag is overwritten by the real read. -/
def AudioClip.readAudioSamples (c : AudioClip) (src : SrcRead) (reqIn : Nat) :
    AudioClip × Nat × Bool :=
  if c.eof = true ∨ c.leftSamples = 0 then
    ({ c with eof := true }, 0, true)
  else
    let req := if c.leftSamples < reqIn then c.leftSamples else reqIn
    let expectedReadPos := Int.tdiv (c.readSamples * 1000) c.sampleRate + c.startOffset
    let c1 :=
      if c.initSeek = false ∧ 1000 < expectedReadPos then
        { c with initSeek := true, srcSeekPos := some expectedReadPos }
      else { c with initSeek := true }
    let diffSamples := Int.tdiv (((src.readPos - expectedReadPos).natAbs : Int) * c.sampleRate) 1000
    let skip := if src.readPos < expectedReadPos then c.isForward = true else c.isForward = false
    if 200 < diffSamples ∧ ¬ skip then
      let silenceSamples := if (req : Int) < diffSamples then (req : Int) else diffSamples
      if 0 < silenceSamples then
        readFinish c1 false silenceSamples.toNat
      else
        readFinish c1 src.readEof (src.deliver req)
    else
      readFinish c1 src.readEof (src.deliver req)

/-- State of AudioOverlap_Impl (lines 407-540): the two clip handles and
the window bounds m_start/m_end (named ostart/oend here since terms cannot
be called end). -/
structure AudioOverlap where
  frontClip : AudioClip
  rearClip : AudioClip
  ostart : Int
  oend : Int
  deriving Repr, DecidableEq

/-- Update (lines 417-440): reorder the handles by start, then either
collapse the window to (0,0) or set it to [rear.start, min of the ends]. -/
def AudioOverlap.update (ov : AudioOverlap) : AudioOverlap :=
  let f := if ov.frontClip.start ≤ ov.rearClip.start then ov.frontClip else ov.rearClip
  let r := if ov.frontClip.start ≤ ov.rearClip.start then ov.rearClip else ov.frontClip
  if f.clipEnd ≤ r.start then
    { frontClip := f, rearClip := r, ostart := 0, oend := 0 }
  else
    { frontClip := f, rearClip := r, ostart := r.start
      oend := if f.clipEnd ≤ r.clipEnd then f.clipEnd else r.clipEnd }

/-- AudioOverlap_Impl::ReadAudioSamples (lines 509-531): clamp the request
to both clips' remaining counts, read the front clip, pass the in-out
count — now the front clip's delivered count — to the rear clip, and report
the rear clip's delivered count together with the disjunction of the two
eof flags.  The returned PCM is the transition mix of the two buffers and
carries no count information. -/
def AudioOverlap.readAudioSamples (ov : AudioOverlap) (srcF srcR : SrcRead)
    (reqIn : Nat) : AudioOverlap × Nat × Bool :=
  let req1 := if ov.frontClip.leftSamples < reqIn then ov.frontClip.leftSamples else reqIn
  let req2 := if ov.rearClip.leftSamples < req1 then ov.rearClip.leftSamples else req1
  if req2 = 0 then
    (ov, 0, true)
  else
    let fr := ov.frontClip.readAudioSamples srcF req2
    let rr := ov.rearClip.readAudioSamples srcR fr.2.1
    ({ ov with frontClip := fr.1, rearClip := rr.1 }, rr.2.1, fr.2.2 || rr.2.2)

/-- AudioOverlap::HasOverlap (lines 542-547), verbatim condition on the
two clips' Start() and End(). -/
def hasOverlap (c1 c2 : AudioClip) : Bool :=
  (decide (c2.start ≤ c1.start) && decide (c1.start < c2.clipEnd)) ||
  (decide (c2.start < c1.clipEnd) && decide (c1.clipEnd ≤ c2.clipEnd)) ||
  (decide (c1.start < c2.start) && decide (c2.clipEnd < c1.clipEnd))

/-- Modelled from the spec: the overlap predicate as the spec words it —
either one's start falls within the other's [start,end), or either one's
end falls within the other's (start,end], or one fully contains the other.
Stated for comparison against hasOverlap, which is taken from the source. -/
def specOverlapPred (a b : AudioClip) : Prop :=
  (b.start ≤ a.start ∧ a.start < b.clipEnd) ∨
  (a.start ≤ b.start ∧ b.start < a.clipEnd) ∨
  (b.start < a.clipEnd ∧ a.clipEnd ≤ b.clipEnd) ∨
  (a.start < b.clipEnd ∧ b.clipEnd ≤ a.clipEnd) ∨
  (a.start ≤ b.start ∧ b.clipEnd ≤ a.clipEnd) ∨
  (b.start ≤ a.start ∧ a.clipEnd ≤ b.clipEnd)

/-- Nonempty intersection of the clips' timeline ranges [start, end). -/
def rangesIntersect (a b : AudioClip) : Prop :=
  max a.start b.start < min a.clipEnd b.clipEnd

/-!  Concrete fixtures used by witnesses and counterexamples.  Each clip is
produced by the constructor (or by a constructor call followed by public
mutator or read calls), so every fixture state is reachable through the
public interface; the adjacent mkClip equations below prove it. -/

/-- A clip over a 5000 ms source at 48 kHz, placed at [0,5000), no trim. -/
def clipW : AudioClip :=
  { start := 0, srcDuration := 5000, startOffset := 0, endOffset := 0,
    padding := 0, readSamples := 0, totalSamples := 240000, eof := false,
    initSeek := false, isForward := true, sampleRate := 48000, srcSeekPos := none }

/-- A fully compliant source: position as expected, full delivery, no eof. -/
def srcW : SrcRead := { readPos := 0, deliver := fun n => n, readEof := false }

/-- clipW after ChangeStartOffset(1000). -/
def clipW1 : AudioClip :=
  { clipW with startOffset := 1000, readSamples := -48000, totalSamples := 192000 }

/-- clipW after one full compliant read of all 240000 samples: at eof. -/
def eofClipW : AudioClip :=
  { clipW with initSeek := true, readSamples := 240000, eof := true }

/-- A clip whose output rate 1999 does not divide 1000 ms evenly. -/
def clipT : AudioClip :=
  { start := 0, srcDuration := 5000, startOffset := 0, endOffset := 0,
    padding := 0, readSamples := 0, totalSamples := 9995, eof := false,
    initSeek := false, isForward := true, sampleRate := 1999, srcSeekPos := none }

/-- A clip constructed with startOffset+endOffset = 6000 exceeding the
5000 ms source duration: the constructor accepts it. -/
def clipV : AudioClip :=
  { start := 0, srcDuration := 5000, startOffset := 3000, endOffset := 3000,
    padding := 2000, readSamples := 0, totalSamples := 48000, eof := false,
    initSeek := false, isForward := true, sampleRate := 48000, srcSeekPos := none }

/-- A clip at [0,1000) over a 10000 ms source (padding -9000). -/
def clipN0 : AudioClip :=
  { start := 0, srcDuration := 10000, startOffset := 0, endOffset := 0,
    padding := -9000, readSamples := 0, totalSamples := 48000, eof := false,
    initSeek := false, isForward := true, sampleRate := 48000, srcSeekPos := none }

/-- clipN0 after ChangeStartOffset(5000): Duration() is now -4000. -/
def clipN : AudioClip :=
  { clipN0 with startOffset := 5000, readSamples := -240000, totalSamples := -192000 }

/-- A clip at [-10000,1000), no trim. -/
def clipM : AudioClip :=
  { start := -10000, srcDuration := 11000, startOffset := 0, endOffset := 0,
    padding := 0, readSamples := 0, totalSamples := 528000, eof := false,
    initSeek := false, isForward := true, sampleRate := 48000, srcSeekPos := none }

/-- A clip at [0,4990) with a 10 ms start trim over a 5000 ms source. -/
def clipS : AudioClip :=
  { start := 0, srcDuration := 5000, startOffset := 10, endOffset := 0,
    padding := 0, readSamples := 0, totalSamples := 239520, eof := false,
    initSeek := false, isForward := true, sampleRate := 48000, srcSeekPos := none }

/-- A source session at position 20 ms, which is 480 output samples ahead
of the 10 ms expected position of the fresh clipS (the drift direction
that triggers silence backfill on a forward read); full delivery, no eof. -/
def srcD : SrcRead := { readPos := 20, deliver := fun n => n, readEof := false }

/-- The overlap of clipS (front, 10 ms start trim) and clipW (rear). -/
def sOv : AudioOverlap := { frontClip := clipS, rearClip := clipW, ostart := 0, oend := 0 }

/-- The overlap of clipN (Duration() = -4000 after a validated
ChangeStartOffset on a constructed clip) and clipM. -/
def nOv : AudioOverlap := { frontClip := clipN, rearClip := clipM, ostart := 0, oend := 0 }

/-- The overlap of clipW and clipM, both of positive duration. -/
def wOv : AudioOverlap := { frontClip := clipW, rearClip := clipM, ostart := 0, oend := 0 }

theorem mkClip_clipW : mkClip 5000 48000 0 5000 0 0 = .ok clipW := rfl

theorem mkClip_clipT : mkClip 5000 1999 0 5000 0 0 = .ok clipT := rfl

theorem mkClip_clipN0 : mkClip 10000 48000 0 1000 0 0 = .ok clipN0 := rfl

theorem mkClip_clipM : mkClip 11000 48000 (-10000) 1000 0 0 = .ok clipM := rfl

theorem mkClip_clipS : mkClip 5000 48000 0 4990 10 0 = .ok clipS := rfl

theorem read_reaches_eofClipW :
    clipW.readAudioSamples srcW 240000 = (eofClipW, 240000, true) := rfl

/-- The delivered-count component of readFinish is the delivered count. -/
theorem readFinish_count (c : AudioClip) (se : Bool) (d : Nat) :
    (readFinish c se d).2.1 = d := by
  simp only [readFinish]
  split_ifs with h
  · rfl
  · omega

/-- When the source reported no eof, the clip's eof flag after readFinish
holds exactly when the remaining sample count reached zero. -/
theorem readFinish_eof_iff (c : AudioClip) (d : Nat) :
    ((readFinish c false d).1.eof = true ↔
      (readFinish c false d).1.leftSamples = 0) := by
  simp only [readFinish, decide_eq_true_eq, Bool.false_eq_true, or_false]
  exact Iff.rfl

/-- Delivering exactly the remaining count drives the remaining count to
zero and raises eof, whatever the source eof flag. -/
theorem readFinish_full (c : AudioClip) (se : Bool) (h : c.leftSamples ≠ 0) :
    (readFinish c se c.leftSamples).2.1 = c.leftSamples ∧
    (readFinish c se c.leftSamples).1.leftSamples = 0 ∧
    (readFinish c se c.leftSamples).2.2 = true := by
  have hpos : 0 < c.leftSamples := Nat.pos_of_ne_zero h
  have hz : ({ c with readSamples := c.readSamples +
      (if c.isForward then (c.leftSamples : Int) else -(c.leftSamples : Int)) } :
        AudioClip).leftSamples = 0 := by
    rcases hf : c.isForward with _ | _ <;>
      simp only [AudioClip.leftSamples, hf, Bool.false_eq_true, if_true,
        if_false] at hpos ⊢ <;>
      split_ifs at hpos ⊢ <;> omega
  simp only [readFinish, if_pos hpos, decide_eq_true_eq]
  exact ⟨trivial, hz, Or.inl hz⟩

/-- Every non-early-return path of ReadAudioSamples ends in readFinish on
a state with the same counters, with a source eof flag that is false or
the reader's, and with a delivered count bounded by the LeftSamples()
value read at entry. -/
theorem readAudioSamples_cases (c : AudioClip) (src : SrcRead) (reqIn : Nat)
    (h0 : ¬ (c.eof = true ∨ c.leftSamples = 0))
    (hcontract : ∀ n, src.deliver n ≤ n) :
    ∃ (c1 : AudioClip) (se : Bool) (d : Nat),
      c.readAudioSamples src reqIn = readFinish c1 se d ∧
      (se = false ∨ se = src.readEof) ∧
      d ≤ c.leftSamples := by
  simp only [AudioClip.readAudioSamples]
  rw [if_neg h0]
  generalize Int.tdiv (((src.readPos -
      (Int.tdiv (c.readSamples * 1000) c.sampleRate + c.startOffset)).natAbs : Int) *
      c.sampleRate) 1000 = D
  split_ifs <;>
    first
      | exact ⟨_, _, _, rfl, Or.inl rfl, by omega⟩
      | exact ⟨_, _, _, rfl, Or.inr rfl, le_trans (hcontract _) (by omega)⟩

/-!  Claim C2. -/

/-- Claim C2: for a source honouring its contract (never delivering more
samples than requested), one ReadAudioSamples call never returns more
samples than the LeftSamples() value at entry; if moreover the request
exceeds LeftSamples(), the clip is not yet at eof and the source is
exactly on the expected position delivering full counts, the call returns
exactly LeftSamples() samples and reports eof; and when the entry eof flag
agrees with LeftSamples() = 0 and the source reports no end-of-stream, the
eof flag after the call holds exactly when LeftSamples() has reached 0. -/
theorem readAudioSamples_leftSamples_spec (c : AudioClip) (src : SrcRead)
    (reqIn : Nat) (hcontract : ∀ n, src.deliver n ≤ n) :
    (c.readAudioSamples src reqIn).2.1 ≤ c.leftSamples ∧
    ((c.leftSamples < reqIn ∧ c.eof = false ∧
        src.readPos = Int.tdiv (c.readSamples * 1000) c.sampleRate + c.startOffset ∧
        (∀ n, src.deliver n = n)) →
      ((c.readAudioSamples src reqIn).2.1 = c.leftSamples ∧
       (c.readAudioSamples src reqIn).2.2 = true)) ∧
    (((c.eof = true ↔ c.leftSamples = 0) ∧ src.readEof = false) →
      ((c.readAudioSamples src reqIn).1.eof = true ↔
        (c.readAudioSamples src reqIn).1.leftSamples = 0)) := by
  by_cases h0 : c.eof = true ∨ c.leftSamples = 0
  · have hres : c.readAudioSamples src reqIn = ({ c with eof := true }, 0, true) := by
      simp only [AudioClip.readAudioSamples]
      rw [if_pos h0]
    rw [hres]
    refine ⟨Nat.zero_le _, ?_, ?_⟩
    · rintro ⟨hL, heof, -, -⟩
      have hz : c.leftSamples = 0 := by
        rcases h0 with h | h
        · rw [heof] at h; exact absurd h (by simp)
        · exact h
      exact ⟨hz.symm, rfl⟩
    · rintro ⟨hiff, -⟩
      have hz : c.leftSamples = 0 := by
        rcases h0 with h | h
        · exact hiff.mp h
        · exact h
      exact ⟨fun _ => hz, fun _ => rfl⟩
  · obtain ⟨c1, se, d, heq, hse, hd⟩ :=
      readAudioSamples_cases c src reqIn h0 hcontract
    refine ⟨?_, ?_, ?_⟩
    · rw [heq, readFinish_count]
      exact hd
    · rintro ⟨hL, heof, hpos, hfull⟩
      have hz : c.leftSamples ≠ 0 := fun hc => h0 (Or.inr hc)
      have hres : c.readAudioSamples src reqIn =
          readFinish
            (if c.initSeek = false ∧
                1000 < Int.tdiv (c.readSamples * 1000) c.sampleRate + c.startOffset
              then { c with
                      initSeek := true
                      srcSeekPos := some (Int.tdiv (c.readSamples * 1000) c.sampleRate + c.startOffset) }
              else { c with initSeek := true })
            src.readEof (src.deliver c.leftSamples) := by
        simp only [AudioClip.readAudioSamples]
        rw [if_neg h0, if_pos hL, hpos, sub_self]
        simp only [Int.natAbs_zero, Nat.cast_zero, zero_mul, Int.zero_tdiv]
        rw [if_neg (fun hcon => absurd hcon.1 (by norm_num))]
      rw [hres, hfull c.leftSamples]
      by_cases hinit : c.initSeek = false ∧
          1000 < Int.tdiv (c.readSamples * 1000) c.sampleRate + c.startOffset
      · rw [if_pos hinit]
        have h1 := readFinish_full
          { c with
            initSeek := true
            srcSeekPos := some (Int.tdiv (c.readSamples * 1000) c.sampleRate + c.startOffset) }
          src.readEof hz
        exact ⟨h1.1, h1.2.2⟩
      · rw [if_neg hinit]
        have h1 := readFinish_full { c with initSeek := true } src.readEof hz
        exact ⟨h1.1, h1.2.2⟩
    · rintro ⟨hiff, hre⟩
      rw [heq]
      have hsef : se = false := by
        rcases hse with h | h
        · exact h
        · rw [h, hre]
      rw [hsef]
      exact readFinish_eof_iff _ _

theorem readAudioSamples_leftSamples_spec_witness :
    (∀ n, srcW.deliver n ≤ n) ∧
    (clipW.readAudioSamples srcW 300000).2.1 = clipW.leftSamples ∧
    (clipW.readAudioSamples srcW 300000).2.2 = true ∧
    ((clipW.readAudioSamples srcW 300000).1.eof = true ↔
      (clipW.readAudioSamples srcW 300000).1.leftSamples = 0) := by
  have h := readAudioSamples_leftSamples_spec clipW srcW 300000
    (fun n => Nat.le_refl n)
  refine ⟨fun n => Nat.le_refl n, ?_, ?_, ?_⟩
  · exact (h.2.1 ⟨by decide, rfl, rfl, fun n => rfl⟩).1
  · exact (h.2.1 ⟨by decide, rfl, rfl, fun n => rfl⟩).2
  · exact h.2.2 ⟨by decide, rfl⟩

/-!  Claim C10. -/


/-- Claim C10: when the clamped request is nonzero, the overlap read asks
the rear clip for exactly the count the front clip actually delivered (the
in-out count parameter as mutated by the front read), and reports as
actualCount the rear clip's delivered count, with eof the disjunction of
the two clips' flags. -/
theorem overlap_read_count_chain (ov : AudioOverlap) (srcF srcR : SrcRead)
    (reqIn : Nat)
    (h : min ov.rearClip.leftSamples (min ov.frontClip.leftSamples reqIn) ≠ 0) :
    ov.readAudioSamples srcF srcR reqIn =
      ({ ov with
          frontClip := (ov.frontClip.readAudioSamples srcF
            (min ov.rearClip.leftSamples (min ov.frontClip.leftSamples reqIn))).1
          rearClip := (ov.rearClip.readAudioSamples srcR
            (ov.frontClip.readAudioSamples srcF
              (min ov.rearClip.leftSamples (min ov.frontClip.leftSamples reqIn))).2.1).1 },
       (ov.rearClip.readAudioSamples srcR
         (ov.frontClip.readAudioSamples srcF
           (min ov.rearClip.leftSamples (min ov.frontClip.leftSamples reqIn))).2.1).2.1,
       (ov.frontClip.readAudioSamples srcF
         (min ov.rearClip.leftSamples (min ov.frontClip.leftSamples reqIn))).2.2 ||
       (ov.rearClip.readAudioSamples srcR
         (ov.frontClip.readAudioSamples srcF
           (min ov.rearClip.leftSamples (min ov.frontClip.leftSamples reqIn))).2.1).2.2) := by
  have hm1 : (if ov.frontClip.leftSamples < reqIn then ov.frontClip.leftSamples
      else reqIn) = min ov.frontClip.leftSamples reqIn := by
    rw [Nat.min_def]; split_ifs <;> omega
  have hm2 : (if ov.rearClip.leftSamples < min ov.frontClip.leftSamples reqIn then
      ov.rearClip.leftSamples else min ov.frontClip.leftSamples reqIn) =
      min ov.rearClip.leftSamples (min ov.frontClip.leftSamples reqIn) := by
    rw [Nat.min_def]; split_ifs <;> omega
  simp only [AudioOverlap.readAudioSamples, hm1, hm2]
  rw [if_neg h]

/-- Witness: on sOv with request 1000, the front clip's reader is 480
samples ahead of the expected position, so the clip backfills silence and
delivers only 480 samples; the rear clip is then asked for 480 and
delivers 480, which is the reported count. -/
theorem overlap_read_count_chain_witness :
    (clipS.readAudioSamples srcD 1000).2.1 = 480 ∧
    (sOv.readAudioSamples srcD srcW 1000).2.1 = 480 ∧
    sOv.readAudioSamples srcD srcW 1000 =
      ({ sOv with
          frontClip := (sOv.frontClip.readAudioSamples srcD
            (min sOv.rearClip.leftSamples (min sOv.frontClip.leftSamples 1000))).1
          rearClip := (sOv.rearClip.readAudioSamples srcW
            (sOv.frontClip.readAudioSamples srcD
              (min sOv.rearClip.leftSamples (min sOv.frontClip.leftSamples 1000))).2.1).1 },
       (sOv.rearClip.readAudioSamples srcW
         (sOv.frontClip.readAudioSamples srcD
           (min sOv.rearClip.leftSamples (min sOv.frontClip.leftSamples 1000))).2.1).2.1,
       (sOv.frontClip.readAudioSamples srcD
         (min sOv.rearClip.leftSamples (min sOv.frontClip.leftSamples 1000))).2.2 ||
       (sOv.rearClip.readAudioSamples srcW
         (sOv.frontClip.readAudioSamples srcD
           (min sOv.rearClip.leftSamples (min sOv.frontClip.leftSamples 1000))).2.1).2.2) :=
  ⟨by decide, by decide,
   overlap_read_count_chain sOv srcD srcW 1000 (by decide)⟩

/-!  Claim C1. -/

/-- Claim C1: for every clip built by the validated constructor, Duration()
equals end - start immediately after construction, padding holds the value
(end-start)+startOffset+endOffset-sourceDuration computed once there, and
in every state Duration() is sourceDuration+padding-startOffset-endOffset. -/
theorem mkClip_duration_spec (sd sr s e so eo : Int) (c : AudioClip)
    (h : mkClip sd sr s e so eo = .ok c) :
    c.duration = e - s ∧
    c.padding = (e - s) + so + eo - sd ∧
    ∀ c2 : AudioClip,
      c2.duration = c2.srcDuration + c2.padding - c2.startOffset - c2.endOffset := by
  unfold mkClip at h
  split_ifs at h with h1 h2 h3
  all_goals simp only [Except.ok.injEq] at h
  subst h
  refine ⟨?_, rfl, fun c2 => rfl⟩
  simp only [AudioClip.duration]
  omega

theorem mkClip_duration_spec_witness :
    clipW.duration = 5000 - 0 ∧
    clipW.padding = (5000 - 0) + 0 + 0 - 5000 ∧
    ∀ c2 : AudioClip,
      c2.duration = c2.srcDuration + c2.padding - c2.startOffset - c2.endOffset :=
  mkClip_duration_spec 5000 48000 0 5000 0 0 clipW rfl

/-!  Claim C4. -/

/-- Claim C4: SeekTo with pos out of [0, Duration()] raises nothing and is
a complete no-op: the state, including the source-session seek record, is
returned unchanged. -/
theorem seekTo_out_of_range_noop (c : AudioClip) (pos : Int)
    (h : pos < 0 ∨ c.duration < pos) :
    c.seekTo pos = c := by
  unfold AudioClip.seekTo
  rw [if_pos h]

theorem seekTo_out_of_range_noop_witness :
    clipW.seekTo (-5) = clipW ∧ clipW.seekTo 6000 = clipW :=
  ⟨seekTo_out_of_range_noop clipW (-5) (Or.inl (by decide)),
   seekTo_out_of_range_noop clipW 6000 (Or.inr (by decide))⟩

/-!  Claim C9. -/

/-- Claim C9: SeekTo with an in-range pos whose sample equivalent
pos*sampleRate/1000 already equals readSamples returns early: no source
seek is issued and the state, in particular the eof flag, is unchanged. -/
theorem seekTo_same_target_noop (c : AudioClip) (pos : Int)
    (h0 : 0 ≤ pos) (h1 : pos ≤ c.duration)
    (ht : Int.tdiv (pos * c.sampleRate) 1000 = c.readSamples) :
    c.seekTo pos = c ∧
    (c.seekTo pos).eof = c.eof ∧
    (c.seekTo pos).srcSeekPos = c.srcSeekPos := by
  have hmain : c.seekTo pos = c := by
    unfold AudioClip.seekTo
    rw [if_neg (by omega)]
    simp only []
    rw [if_pos ht]
  exact ⟨hmain, by rw [hmain], by rw [hmain]⟩

theorem seekTo_same_target_noop_witness :
    eofClipW.seekTo 5000 = eofClipW ∧
    (eofClipW.seekTo 5000).eof = eofClipW.eof ∧
    (eofClipW.seekTo 5000).srcSeekPos = eofClipW.srcSeekPos :=
  seekTo_same_target_noop eofClipW 5000 (by decide) (by decide) (by decide)

/-!  Claim C8. -/

/-- Claim C8: for clips with end > start, HasOverlap is symmetric and
coincides with the spec's predicate (start inside the other's [start,end),
end inside the other's (start,end], or full containment). -/
theorem hasOverlap_symm_spec (a b : AudioClip)
    (ha : a.start < a.clipEnd) (hb : b.start < b.clipEnd) :
    hasOverlap a b = hasOverlap b a ∧
    (hasOverlap a b = true ↔ specOverlapPred a b) := by
  constructor
  · rw [Bool.eq_iff_iff]
    simp only [hasOverlap, Bool.or_eq_true, Bool.and_eq_true, decide_eq_true_eq]
    omega
  · simp only [hasOverlap, specOverlapPred, Bool.or_eq_true, Bool.and_eq_true,
      decide_eq_true_eq]
    omega

theorem hasOverlap_symm_spec_witness :
    hasOverlap clipW clipM = hasOverlap clipM clipW ∧
    (hasOverlap clipW clipM = true ↔ specOverlapPred clipW clipM) :=
  hasOverlap_symm_spec clipW clipM (by decide) (by decide)

/-!  Claim C5 (corrected). -/

/-- Claim C5 counterexample: on the forward-reading clipW (the construction
default), ChangeStartOffset(1000) changes totalSamples by -48000 but leaves
LeftSamples() at 240000, so the LeftSamples() change is not the
totalSamples delta claimed. -/
theorem changeStartOffset_leftSamples_counterexample :
    changeStartOffset clipW 1000 = .ok clipW1 ∧
    clipW1.leftSamples = 240000 ∧ clipW.leftSamples = 240000 ∧
    clipW1.totalSamples - clipW.totalSamples = -48000 ∧
    ((clipW1.leftSamples : Int) - (clipW.leftSamples : Int) ≠
      clipW1.totalSamples - clipW.totalSamples) :=
  ⟨rfl, by decide, by decide, by decide, by decide⟩

/-- Claim C5 as amended: for a clip reading forward, a successful
ChangeStartOffset leaves LeftSamples() unchanged — the mutator adds the
totalSamples delta to readSamples, so totalSamples - readSamples and with
it LeftSamples() are invariant. -/
theorem changeStartOffset_leftSamples_forward (c c1 : AudioClip) (v : Int)
    (hf : c.isForward = true) (h : changeStartOffset c v = .ok c1) :
    c1.leftSamples = c.leftSamples := by
  unfold changeStartOffset at h
  split_ifs at h with h1 h2 h3
  all_goals simp only [Except.ok.injEq] at h
  · subst h; rfl
  · subst h
    simp only [AudioClip.leftSamples, hf, if_true]
    split_ifs <;> omega

theorem changeStartOffset_leftSamples_forward_witness :
    clipW1.leftSamples = clipW.leftSamples :=
  changeStartOffset_leftSamples_forward clipW clipW1 1000 rfl rfl

/-!  Claim C6 (corrected). -/

/-- Claim C6 counterexample: the constructor accepts startOffset = 3000 and
endOffset = 3000 against a 5000 ms source, so startOffset + endOffset <
sourceDuration does not hold after this successful construction (the
constructor checks only the offsets' signs and end > start). -/
theorem offset_sum_invariant_counterexample :
    mkClip 5000 48000 0 1000 3000 3000 = .ok clipV ∧
    clipV.srcDuration ≤ clipV.startOffset + clipV.endOffset :=
  ⟨rfl, by decide⟩

/-- Claim C6 as amended: ChangeStartOffset and ChangeEndOffset preserve
the invariant startOffset + endOffset < sourceDuration, and reject with
InvalidArgument any new offset value that would violate it; construction,
however, does not establish the invariant (it validates only
startOffset ≥ 0, endOffset ≥ 0 and end > start). -/
theorem offset_sum_invariant_mutators (c c1 : AudioClip) (v : Int) :
    (changeStartOffset c v = .ok c1 →
      c.startOffset + c.endOffset < c.srcDuration →
      c1.startOffset + c1.endOffset < c1.srcDuration) ∧
    (changeEndOffset c v = .ok c1 →
      c.startOffset + c.endOffset < c.srcDuration →
      c1.startOffset + c1.endOffset < c1.srcDuration) ∧
    (v ≠ c.startOffset → c.srcDuration ≤ v + c.endOffset →
      changeStartOffset c v = .error .invalidArgument) ∧
    (v ≠ c.endOffset → c.srcDuration ≤ c.startOffset + v →
      changeEndOffset c v = .error .invalidArgument) := by
  refine ⟨?_, ?_, ?_, ?_⟩
  · intro h hInv
    unfold changeStartOffset at h
    split_ifs at h with h1 h2 h3
    all_goals simp only [Except.ok.injEq] at h
    · subst h; exact hInv
    · subst h; simp only []; omega
  · intro h hInv
    unfold changeEndOffset at h
    split_ifs at h with h1 h2 h3
    all_goals simp only [Except.ok.injEq] at h
    · subst h; exact hInv
    · subst h; simp only []; omega
  · intro hne hv
    unfold changeStartOffset
    rw [if_neg hne]
    by_cases h2 : v < 0
    · rw [if_pos h2]
    · rw [if_neg h2, if_pos hv]
  · intro hne hv
    unfold changeEndOffset
    rw [if_neg hne]
    by_cases h2 : v < 0
    · rw [if_pos h2]
    · rw [if_neg h2, if_pos hv]

theorem offset_sum_invariant_mutators_witness :
    (clipW1.startOffset + clipW1.endOffset < clipW1.srcDuration) ∧
    (changeStartOffset clipW 6000 = .error .invalidArgument) :=
  ⟨(offset_sum_invariant_mutators clipW clipW1 1000).1 rfl (by decide),
   (offset_sum_invariant_mutators clipW clipW1 6000).2.2.1 (by decide) (by decide)⟩

/-!  Claim C7 (corrected). -/



/-- Claim C7 counterexample: clipN is reachable through the public
interface (constructor then ChangeStartOffset) yet has negative Duration();
Update() on its overlap with clipM produces a window with start 0 and end
-4000, so start ≤ end fails, and the window is not (0,0) although the
ranges do not intersect. -/
theorem overlap_update_counterexample :
    mkClip 10000 48000 0 1000 0 0 = .ok clipN0 ∧
    changeStartOffset clipN0 5000 = .ok clipN ∧
    mkClip 11000 48000 (-10000) 1000 0 0 = .ok clipM ∧
    nOv.update.ostart = 0 ∧ nOv.update.oend = -4000 ∧
    nOv.update.oend < nOv.update.ostart ∧
    ¬ rangesIntersect nOv.frontClip nOv.rearClip :=
  ⟨rfl, rfl, rfl, by decide, by decide, by decide, by
    simp only [rangesIntersect]; decide⟩

/-- Claim C7 as amended: provided both clips have positive duration
(guaranteed at construction, but not preserved by the offset mutators),
after Update() the front clip starts no later than the rear clip, the
window satisfies start ≤ end, the window is (0,0) exactly when the two
clips' timeline ranges do not intersect, and otherwise its start is the
rear clip's start and its end the minimum of the two ends. -/
theorem overlap_update_spec (ov : AudioOverlap)
    (h1 : 0 < ov.frontClip.duration) (h2 : 0 < ov.rearClip.duration) :
    ov.update.frontClip.start ≤ ov.update.rearClip.start ∧
    ov.update.ostart ≤ ov.update.oend ∧
    ((ov.update.ostart = 0 ∧ ov.update.oend = 0) ↔
      ¬ rangesIntersect ov.frontClip ov.rearClip) ∧
    (rangesIntersect ov.frontClip ov.rearClip →
      ov.update.ostart = ov.update.rearClip.start ∧
      ov.update.oend = min ov.update.frontClip.clipEnd ov.update.rearClip.clipEnd) := by
  simp only [AudioOverlap.update]
  rcases le_or_lt ov.frontClip.start ov.rearClip.start with hs | hs
  · rw [if_pos hs, if_pos hs]
    unfold AudioClip.duration at h1 h2
    unfold rangesIntersect AudioClip.clipEnd AudioClip.duration
    split_ifs <;> dsimp only [] <;> omega
  · rw [if_neg (not_le.mpr hs), if_neg (not_le.mpr hs)]
    unfold AudioClip.duration at h1 h2
    unfold rangesIntersect AudioClip.clipEnd AudioClip.duration
    split_ifs <;> dsimp only [] <;> omega

/-!  Claim C3 (corrected). -/

/-- Claim C3 counterexample, two in-range inputs.  First, on eofClipW
(reached by reading clipW to its end) the in-range call SeekTo(5000) hits
the early return: no source seek is issued (srcSeekPos stays none) and eof
is not cleared, against the claim's unconditional wording.  Second, on
clipT (output rate 1999) SeekTo(1) leaves ReadPos() = start + 0, an error
of 1 ms; one output sample period is 1000/1999 ms, so the error exceeds
one sample period: (start + pos - ReadPos()) * rate = 1999 > 1000. -/
theorem seekTo_spec_counterexample :
    ((0 : Int) ≤ 5000 ∧ (5000 : Int) ≤ eofClipW.duration ∧
      (eofClipW.seekTo 5000).eof = true ∧
      (eofClipW.seekTo 5000).srcSeekPos = none) ∧
    ((0 : Int) ≤ 1 ∧ (1 : Int) ≤ clipT.duration ∧
      (clipT.seekTo 1).readPos = clipT.start ∧
      (clipT.start + 1 - (clipT.seekTo 1).readPos) * clipT.sampleRate = 1999 ∧
      (1000 : Int) < 1999) :=
  ⟨⟨by decide, by decide, by decide, by decide⟩,
   ⟨by decide, by decide, by decide, by decide, by decide⟩⟩

/-- Claim C3 as amended: for a clip with positive sample rate and pos in
[0, Duration()] whose sample equivalent pos*rate/1000 differs from the
current readSamples (otherwise the call is the C9 early-return no-op),
SeekTo(pos) issues a source seek to pos+startOffset clamped to
sourceDuration, sets readSamples to pos*rate/1000 and clears eof, and
immediately afterwards ReadPos() equals start + pos to within one output
sample period plus one millisecond, undershooting only (the millisecond
slack is forced by the integer-ms arithmetic whenever the rate does not
divide 1000, as the counterexample shows). -/
theorem seekTo_in_range_spec (c : AudioClip) (pos : Int)
    (hr : 0 < c.sampleRate) (h0 : 0 ≤ pos) (h1 : pos ≤ c.duration)
    (hne : Int.tdiv (pos * c.sampleRate) 1000 ≠ c.readSamples) :
    (c.seekTo pos).srcSeekPos = some (min (pos + c.startOffset) c.srcDuration) ∧
    (c.seekTo pos).readSamples = Int.tdiv (pos * c.sampleRate) 1000 ∧
    (c.seekTo pos).eof = false ∧
    (c.seekTo pos).readPos ≤ c.start + pos ∧
    c.start + pos ≤ (c.seekTo pos).readPos + Int.tdiv 1000 c.sampleRate + 1 := by
  have hseek : c.seekTo pos =
      { c with
        srcSeekPos := some (if c.srcDuration < pos + c.startOffset then
          c.srcDuration else pos + c.startOffset)
        readSamples := Int.tdiv (pos * c.sampleRate) 1000
        eof := false } := by
    simp only [AudioClip.seekTo]
    rw [if_neg (by omega), if_neg hne]
  have hmin : (if c.srcDuration < pos + c.startOffset then c.srcDuration
      else pos + c.startOffset) = min (pos + c.startOffset) c.srcDuration := by
    rw [min_def]; split_ifs <;> omega
  rw [hseek]
  have hb : Int.tdiv (Int.tdiv (pos * c.sampleRate) 1000 * 1000) c.sampleRate ≤ pos ∧
      pos ≤ Int.tdiv (Int.tdiv (pos * c.sampleRate) 1000 * 1000) c.sampleRate +
        Int.tdiv 1000 c.sampleRate + 1 := by
    have hPnn : 0 ≤ pos * c.sampleRate := mul_nonneg h0 (le_of_lt hr)
    rw [Int.tdiv_eq_ediv hPnn (by norm_num)]
    have htnn : 0 ≤ pos * c.sampleRate / 1000 :=
      Int.ediv_nonneg hPnn (by norm_num)
    rw [Int.tdiv_eq_ediv (mul_nonneg htnn (by norm_num)) (le_of_lt hr)]
    rw [Int.tdiv_eq_ediv (by norm_num) (le_of_lt hr)]
    set t : Int := pos * c.sampleRate / 1000 with ht
    set u : Int := t * 1000 / c.sampleRate with hu
    have e1 : 1000 * t + pos * c.sampleRate % 1000 = pos * c.sampleRate :=
      Int.ediv_add_emod (pos * c.sampleRate) 1000
    have e2a : 0 ≤ pos * c.sampleRate % 1000 :=
      Int.emod_nonneg _ (by norm_num)
    have e2b : pos * c.sampleRate % 1000 < 1000 :=
      Int.emod_lt_of_pos _ (by norm_num)
    have e3 : c.sampleRate * u + t * 1000 % c.sampleRate = t * 1000 :=
      Int.ediv_add_emod (t * 1000) c.sampleRate
    have e4a : 0 ≤ t * 1000 % c.sampleRate :=
      Int.emod_nonneg _ (by omega)
    have e4b : t * 1000 % c.sampleRate < c.sampleRate :=
      Int.emod_lt_of_pos _ hr
    have hup : u ≤ pos := by
      have h5 : c.sampleRate * u ≤ c.sampleRate * pos := by
        rw [mul_comm c.sampleRate pos]; omega
      exact le_of_mul_le_mul_left h5 hr
    have hq0 : 0 ≤ (1000 : Int) / c.sampleRate :=
      Int.ediv_nonneg (by norm_num) (le_of_lt hr)
    have hbound : pos ≤ u + 1000 / c.sampleRate + 1 := by
      rcases le_or_lt pos (u + 1) with hk | hk
      · omega
      · have h6 : (pos - u - 1) * c.sampleRate ≤ 998 := by
          have h7 : c.sampleRate * pos ≤ c.sampleRate * u + c.sampleRate + 998 := by
            rw [mul_comm c.sampleRate pos]; omega
          have h8 : (pos - u - 1) * c.sampleRate =
              c.sampleRate * pos - c.sampleRate * u - c.sampleRate := by ring
          omega
        have h9 : pos - u - 1 ≤ 998 / c.sampleRate :=
          (Int.le_ediv_iff_mul_le hr).mpr h6
        have h10 : (998 : Int) / c.sampleRate ≤ 1000 / c.sampleRate :=
          Int.ediv_le_ediv hr (by norm_num)
        omega
    exact ⟨hup, hbound⟩
  refine ⟨by rw [hmin], rfl, rfl, ?_, ?_⟩
  · simp only [AudioClip.readPos]
    omega
  · simp only [AudioClip.readPos]
    omega

theorem seekTo_in_range_spec_witness :
    (clipW.seekTo 1000).srcSeekPos = some (min ((1000 : Int) + clipW.startOffset) clipW.srcDuration) ∧
    (clipW.seekTo 1000).readSamples = Int.tdiv (1000 * clipW.sampleRate) 1000 ∧
    (clipW.seekTo 1000).eof = false ∧
    (clipW.seekTo 1000).readPos ≤ clipW.start + 1000 ∧
    clipW.start + 1000 ≤ (clipW.seekTo 1000).readPos + Int.tdiv 1000 clipW.sampleRate + 1 :=
  seekTo_in_range_spec clipW 1000 (by decide) (by decide) (by decide) (by decide)

theorem overlap_update_spec_witness :
    wOv.update.frontClip.start ≤ wOv.update.rearClip.start ∧
    wOv.update.ostart ≤ wOv.update.oend ∧
    ((wOv.update.ostart = 0 ∧ wOv.update.oend = 0) ↔
      ¬ rangesIntersect wOv.frontClip wOv.rearClip) ∧
    (rangesIntersect wOv.frontClip wOv.rearClip →
      wOv.update.ostart = wOv.update.rearClip.start ∧
      wOv.update.oend = min wOv.update.frontClip.clipEnd wOv.update.rearClip.clipEnd) :=
  overlap_update_spec wOv (by decide) (by decide)

end MediaCore
